import Mathlib

/-!
# Verification of the Google Ads proxy utility module

Shallow embedding of `src/utils/google-ads-api.js`.  The repository file
concatenates three revisions of the module; the last revision is the one
bound by `module.exports` and imported by every endpoint handler, so its
definitions (`getAccessTokenFromRefresh`, `parseSearchStreamChunk`,
`executeGAQLQuery`, `normalizeCustomerId`) are embedded under their source
names.  The second revision's streaming (`:searchStream`) response parsing,
which several spec sentences were written from, is embedded in the
`Streaming` namespace.

Modelling conventions:
* JSON values are the inductive `Json`; only top-level field access is ever
  performed by the source, so no recursion into children is needed.
* `JSON.parse` of a network body is abstracted as a parse oracle: an
  `HttpResp` carries `bodyJson : Option Json` (the parse result of
  `bodyText` as one document), and a streaming body is given as the list of
  per-line parse results `List (Option Json)`.
* JavaScript truthiness (`!x`, `a || b`, `if (x)`) is modelled explicitly
  by `truthy`, `jsOrS`, `jsOrI`.
* Network effects are modelled by passing the provider's responses in as
  oracle arguments and counting the calls the code would issue.
* Thrown `Error`s are modelled by `Except` with the `GadsError` kind.
-/

/-- JSON values, as produced by `JSON.parse` (numbers simplified to `Int`;
no claim depends on fractional numerics). -/
inductive Json where
  | null
  | bool (b : Bool)
  | num (n : Int)
  | str (s : String)
  | arr (elems : List Json)
  | obj (fields : List (String × Json))

/-- JavaScript truthiness of a JSON value: `null`, `false`, `0` and `""`
are falsy; every object and array is truthy. -/
def Json.truthy : Json → Bool
  | .null => false
  | .bool b => b
  | .num n => n != 0
  | .str s => s != ""
  | .arr _ => true
  | .obj _ => true

/-- Property read `j.k`: the first binding of `k` when `j` is an object,
otherwise `none` (i.e. `undefined`). -/
def Json.getField : Json → String → Option Json
  | .obj fields, k => fields.lookup k
  | _, _ => none

/-- Whether key `k` is present at the top level of `j`. -/
def Json.hasKey (j : Json) (k : String) : Bool :=
  (j.getField k).isSome

/-- JavaScript truthiness of a property read (`undefined` is falsy). -/
def Json.truthyField (j : Json) (k : String) : Bool :=
  match j.getField k with
  | some v => v.truthy
  | none => false

/-- Property assignment `j[k] = v` on an object: replaces an existing
binding in place, otherwise appends (JS property-order semantics).  The
source only assigns on values guarded by `typeof chunk === 'object'`. -/
def Json.setField : Json → String → Json → Json
  | .obj fields, k, v => .obj (go fields k v)
  | j, _, _ => j
where go : List (String × Json) → String → Json → List (String × Json)
  | [], k, v => [(k, v)]
  | (k', v') :: rest, k, v =>
      if k' = k then (k, v) :: rest else (k', v') :: go rest k v

/-- `chunk.results` when it exists and is an array
(`chunk.results && Array.isArray(chunk.results)`). -/
def Json.resultsArr (j : Json) : Option (List Json) :=
  match j.getField "results" with
  | some (.arr rs) => some rs
  | _ => none

/-- JS `a || b` on optional strings, where the empty string is falsy
(used for `refreshToken || process.env...` and `loginCustomerId || MANAGER_ID`). -/
def jsOrS (a b : Option String) : Option String :=
  match a with
  | some s => if s = "" then nonEmpty b else some s
  | none => nonEmpty b
where nonEmpty : Option String → Option String
  | some s => if s = "" then none else some s
  | none => none

/-- JS `n || d` on an optional integer, where `0` is falsy
(used for `data.expires_in || 3600`). -/
def jsOrI (a : Option Int) (d : Int) : Int :=
  match a with
  | some n => if n = 0 then d else n
  | none => d

/-- JS truthiness of an optional string (`undefined` and `""` falsy),
used for `data.access_token` and the `refreshToken` parameter. -/
def truthyS : Option String → Bool
  | some s => s != ""
  | none => false

/-- One slot of the in-memory token cache:
`Map<refreshToken, {token, expiry}>` values. -/
structure CacheEntry where
  token : String
  expiry : Int
deriving DecidableEq

/-- The module-level `tokenCache` map, as an association list keyed by
refresh token (`Map` get/set/delete semantics). -/
def TokenCache := List (String × CacheEntry)

instance : Append TokenCache := ⟨List.append⟩

/-- `tokenCache.get t`. -/
def cacheGet (c : TokenCache) (t : String) : Option CacheEntry :=
  List.lookup t c

/-- `tokenCache.delete t`. -/
def cacheErase (c : TokenCache) (t : String) : TokenCache :=
  List.filter (fun p => p.1 != t) c

/-- `tokenCache.set t e` (overwrite-or-insert). -/
def cacheSet (c : TokenCache) (t : String) (e : CacheEntry) : TokenCache :=
  (t, e) :: cacheErase c t

/-- The guard `cached && now < cached.expiry` from the source: the cache
holds a live entry for `t` at time `now`. -/
def hasLiveEntry (c : TokenCache) (now : Int) (t : String) : Bool :=
  match cacheGet c t with
  | some e => now < e.expiry
  | none => false

/-- The OAuth token endpoint's answer to one refresh exchange:
`response.ok`, and the `access_token` / `expires_in` fields of the JSON
body (`none` = field absent). -/
structure RefreshResp where
  ok : Bool
  access_token : Option String
  expires_in : Option Int

/-- Error kinds thrown by the module (spec names them `MissingCredential`,
`InvalidArgument`, `TokenRefreshFailed`, `QueryFailed`, `MalformedResponse`).
`queryFailed` carries the provider's HTTP status and the parsed-or-raw
error payload; `afterRefresh` distinguishes the post-retry throw. -/
inductive GadsError where
  | missingCredential
  | invalidArgument
  | tokenRefreshFailed
  | queryFailed (status : Nat) (details : Json) (afterRefresh : Bool)
  | malformedResponse (afterRefresh : Bool)

/-- Observable outcome of one `getAccessTokenFromRefresh` call: the
returned/thrown value, the token cache afterwards, and how many network
calls to the OAuth endpoint were issued. -/
structure RefreshOutcome where
  result : Except GadsError String
  cache : TokenCache
  networkCalls : Nat

/-- `getAccessTokenFromRefresh(refreshToken)` from the exported (last)
revision, lines 440–489: resolve the refresh token (parameter `||` env
fallback), return a live cached token without any network call, otherwise
exchange the refresh token at the OAuth endpoint (`resp` is the oracle for
that one call), failing without touching the cache when the provider
responds non-ok or without a truthy `access_token`, and on success caching
`{token, expiry = now + (expires_in || 3600 - 300) * 1000}`. -/
def getAccessTokenFromRefresh (envRefreshToken : Option String)
    (cache : TokenCache) (now : Int)
    (refreshToken : Option String) (resp : RefreshResp) : RefreshOutcome :=
  match jsOrS refreshToken envRefreshToken with
  | none => ⟨.error .missingCredential, cache, 0⟩
  | some token =>
    match cacheGet cache token with
    | some cached =>
        if now < cached.expiry then
          ⟨.ok cached.token, cache, 0⟩
        else
          refreshPath cache now token resp
    | none => refreshPath cache now token resp
where
  /-- The network branch: one OAuth exchange, then fail or cache-and-return. -/
  refreshPath (cache : TokenCache) (now : Int) (token : String)
      (resp : RefreshResp) : RefreshOutcome :=
    if resp.ok && truthyS resp.access_token then
      match resp.access_token with
      | some accessToken =>
          let expiresIn := jsOrI resp.expires_in 3600
          let cacheExpiry := now + (expiresIn - 300) * 1000
          ⟨.ok accessToken, cacheSet cache token ⟨accessToken, cacheExpiry⟩, 1⟩
      | none => ⟨.error .tokenRefreshFailed, cache, 1⟩
    else ⟨.error .tokenRefreshFailed, cache, 1⟩

/-- The source's recognized top-level resource keys, tested by truthiness:
`chunk.campaign || chunk.ad_group || chunk.ad_group_ad ||
chunk.customer_client || chunk.metrics`. -/
def recognizedKeys (j : Json) : Bool :=
  j.truthyField "campaign" || j.truthyField "ad_group" ||
    j.truthyField "ad_group_ad" || j.truthyField "customer_client" ||
    j.truthyField "metrics"

/-- One reconciliation step of the exported `parseSearchStreamChunk`:
`if (!chunk[snake] && chunk[camel]) chunk[snake] = chunk[camel]`. -/
def copyKey (j : Json) (snake camel : String) : Json :=
  if !j.truthyField snake && j.truthyField camel then
    match j.getField camel with
    | some v => j.setField snake v
    | none => j
  else j

/-- The camelCase→snake_case reconciliation block (exported revision,
lines 503–508), applied only when `chunk && typeof chunk === 'object'`
holds, i.e. on objects and arrays (a no-op on arrays, which carry no
fields). -/
def reconcile (j : Json) : Json :=
  match j with
  | .obj _ =>
      copyKey (copyKey (copyKey j "ad_group" "adGroup")
        "ad_group_ad" "adGroupAd") "customer_client" "customerClient"
  | _ => j

/-- `parseSearchStreamChunk(chunk)` from the exported (last) revision,
lines 497–518.  `Except.error` models the `TypeError` thrown by
`chunk.results` when the chunk is JSON `null` (the only value produced by
`JSON.parse` on which the property read itself throws; the callers catch
or propagate it). -/
def parseSearchStreamChunk (chunk : Json) : Except Unit (List Json) :=
  match chunk with
  | .null => .error ()
  | j =>
    match j.resultsArr with
    | some rs => .ok rs
    | none =>
      let j := reconcile j
      if recognizedKeys j then .ok [j] else .ok []

/-- Body handling of a successful `/search` response in the exported
revision (normal path lines 660–675, retry path lines 622–638, both
identical): the whole body is one JSON document — an array of rows, an
object with a `results` array, or a bare chunk — with every row pushed
through `parseSearchStreamChunk`; a thrown `TypeError` (null values) is
caught by the surrounding `try` and rethrown as a parse failure. -/
def parseSearchBody (j : Json) : Except Unit (List Json) :=
  match j with
  | .arr xs => (xs.mapM parseSearchStreamChunk).map List.flatten
  | .null => .error ()
  | _ =>
    match j.resultsArr with
    | some rs => (rs.mapM parseSearchStreamChunk).map List.flatten
    | none => parseSearchStreamChunk j

namespace Streaming

/-- `parseSearchStreamChunk(chunk)` from the second (`:searchStream`)
revision, lines 207–222: as the exported one but with no
camelCase→snake_case reconciliation. -/
def parseSearchStreamChunk (chunk : Json) : Except Unit (List Json) :=
  match chunk with
  | .null => .error ()
  | j =>
    match j.resultsArr with
    | some rs => .ok rs
    | none => if recognizedKeys j then .ok [j] else .ok []

/-- Rows and error-log count contributed by one line of a streaming body
(second revision, lines 361–378): an unparseable line (`none`) or a chunk
on which `parseSearchStreamChunk` throws is logged and skipped. -/
def lineRows (o : Option Json) : List Json × Nat :=
  match o with
  | none => ([], 1)
  | some j =>
    match parseSearchStreamChunk j with
    | .ok rs => (rs, 0)
    | .error _ => ([], 1)

/-- Normal-path body handling of a successful `:searchStream` response
(second revision, lines 344–395): split into lines, parse each line,
`flatMap` the chunk rows, logging and skipping each bad line.  The input
is the list of per-line `JSON.parse` results; the `Nat` is the number of
error-log entries emitted. -/
def parseBody : List (Option Json) → List Json × Nat
  | [] => ([], 0)
  | o :: rest =>
    let hd := lineRows o
    let tl := parseBody rest
    (hd.1 ++ tl.1, hd.2 + tl.2)

/-- A chunk that is itself a single row for the streaming revision: no
`results` array and a truthy recognized resource key. -/
def isDirectRow (j : Json) : Bool :=
  j.resultsArr.isNone && recognizedKeys j

end Streaming

/-- One HTTP response from the query endpoint: status, raw body text, and
the `JSON.parse` result of the whole body (`none` = unparseable), the
latter standing in for the parser as an oracle. -/
structure HttpResp where
  status : Nat
  bodyText : String
  bodyJson : Option Json

/-- `response.ok` (status in the 200–299 range). -/
def respOk (r : HttpResp) : Bool :=
  200 ≤ r.status && r.status ≤ 299

/-- The `errorDetails` attached to a `QueryFailed` throw: the error body
parsed as JSON when possible, else the raw text. -/
def errorDetailsOf (r : HttpResp) : Json :=
  match r.bodyJson with
  | some j => j
  | none => .str r.bodyText

/-- Module-level configuration read from the environment. -/
structure Config where
  managerId : Option String
  envRefreshToken : Option String

/-- The provider's answers to the (at most) three network calls one
`executeGAQLQuery` invocation can issue. -/
structure QueryEnv where
  firstResp : HttpResp
  refreshResp : RefreshResp
  retryResp : HttpResp

/-- `customerId.replace(dash-regex, '')`: drop every `'-'` character. -/
def removeDashes (s : String) : String :=
  String.mk (s.data.filter (fun ch => ch != '-'))

/-- `String(mccId).replace(/[^0-9]/g, '')`. -/
def digitsOnly (s : String) : String :=
  String.mk (s.data.filter Char.isDigit)

/-- The query URL built by the exported revision (line 557):
`:search` endpoint, API version v22, normalized customer id. -/
def effectiveUrl (normalizedCustomerId : String) : String :=
  "https://googleads.googleapis.com/v22/customers/" ++ normalizedCustomerId
    ++ "/googleAds:search"

/-- The `login-customer-id` header value: `loginCustomerId || MANAGER_ID`,
digits only; `none` when both are missing/empty. -/
def resolvedMcc (cfg : Config) (loginCustomerId : Option String) : Option String :=
  (jsOrS loginCustomerId cfg.managerId).map digitsOnly

/-- One outbound query request as the code issues it: URL, bearer token,
optional MCC header, and the GAQL query carried in the JSON body. -/
structure QueryRequest where
  url : String
  auth : String
  mcc : Option String
  gaql : String
deriving DecidableEq

/-- Observable outcome of one `executeGAQLQuery` call: returned rows or
thrown error, the token cache afterwards, the number of OAuth-endpoint
calls, and the query requests issued in order. -/
structure ExecOutcome where
  result : Except GadsError (List Json)
  cache : TokenCache
  oauthCalls : Nat
  requests : List QueryRequest

/-- Shared tail of both response paths: non-2xx throws `QueryFailed`
(with the given `afterRefresh` flag), a 2xx body that fails to parse
throws a parse failure (`MalformedResponse`), otherwise the rows. -/
def handleSearchResponse (r : HttpResp) (afterRefresh : Bool)
    (cache : TokenCache) (oauthCalls : Nat) (requests : List QueryRequest) :
    ExecOutcome :=
  if respOk r then
    match r.bodyJson with
    | none => ⟨.error (.malformedResponse afterRefresh), cache, oauthCalls, requests⟩
    | some j =>
      match parseSearchBody j with
      | .ok rows => ⟨.ok rows, cache, oauthCalls, requests⟩
      | .error _ => ⟨.error (.malformedResponse afterRefresh), cache, oauthCalls, requests⟩
  else
    ⟨.error (.queryFailed r.status (errorDetailsOf r) afterRefresh), cache,
      oauthCalls, requests⟩

/-- `executeGAQLQuery(customerId, accessToken, query, loginCustomerId,
refreshToken)` from the exported (last) revision, lines 529–679, split
into argument validation (`executeGAQLQuery` below) and the body after
normalization (`executeGAQLQuery.core`): normalize the customer id, issue
the query (`env.firstResp`); on a 401 with a truthy `refreshToken`,
delete that token's cache entry, acquire a fresh access token
(`env.refreshResp`), and retry exactly once (`env.retryResp`); otherwise
surface non-2xx as `QueryFailed` and parse a 2xx body as a single
`/search` JSON document. -/
def executeGAQLQuery.core (cfg : Config) (cache : TokenCache) (now : Int)
    (env : QueryEnv) (normalizedCustomerId accessToken query : String)
    (loginCustomerId refreshToken : Option String) : ExecOutcome :=
  if env.firstResp.status = 401 && truthyS refreshToken then
    match refreshToken with
    | none =>
        handleSearchResponse env.firstResp false cache 0
          [⟨effectiveUrl normalizedCustomerId, accessToken,
            resolvedMcc cfg loginCustomerId, query⟩]
    | some rt =>
      match getAccessTokenFromRefresh cfg.envRefreshToken
          (cacheErase cache rt) now (some rt) env.refreshResp with
      | ⟨.error e, cache2, oauthN⟩ =>
          ⟨.error e, cache2, oauthN,
            [⟨effectiveUrl normalizedCustomerId, accessToken,
              resolvedMcc cfg loginCustomerId, query⟩]⟩
      | ⟨.ok newAccessToken, cache2, oauthN⟩ =>
          handleSearchResponse env.retryResp true cache2 oauthN
            [⟨effectiveUrl normalizedCustomerId, accessToken,
                resolvedMcc cfg loginCustomerId, query⟩,
              ⟨effectiveUrl normalizedCustomerId, newAccessToken,
                resolvedMcc cfg loginCustomerId, query⟩]
  else
    handleSearchResponse env.firstResp false cache 0
      [⟨effectiveUrl normalizedCustomerId, accessToken,
        resolvedMcc cfg loginCustomerId, query⟩]

def executeGAQLQuery (cfg : Config) (cache : TokenCache) (now : Int)
    (env : QueryEnv) (customerId accessToken query : String)
    (loginCustomerId refreshToken : Option String) : ExecOutcome :=
  if customerId = "" || accessToken = "" || query = "" then
    ⟨.error .invalidArgument, cache, 0, []⟩
  else
    executeGAQLQuery.core cfg cache now env (removeDashes customerId)
      accessToken query loginCustomerId refreshToken

/-- `normalizeCustomerId(customerId)` (lines 687–692): reject a missing
id, strip dashes otherwise (the `typeof` check is vacuous here since the
model types the argument as a string). -/
def normalizeCustomerId (customerId : String) : Except GadsError String :=
  if customerId = "" then .error .invalidArgument
  else .ok (removeDashes customerId)

/-- A row on which the exported chunk normalizer acts as the identity
one-row wrapper: no `results` array, a truthy recognized snake_case
resource key, and no camelCase reconciliation step applies. -/
def goodRow (j : Json) : Bool :=
  j.resultsArr.isNone && recognizedKeys j &&
    !((!j.truthyField "ad_group" && j.truthyField "adGroup") ||
      (!j.truthyField "ad_group_ad" && j.truthyField "adGroupAd") ||
      (!j.truthyField "customer_client" && j.truthyField "customerClient"))

/-- One reconciliation step as the amended claim words it: copy the
camelCase spelling into the snake_case key when the camelCase key holds a
truthy value and the snake_case key does not. -/
def specCopy (j : Json) (snake camel : String) : Json :=
  match j.getField camel with
  | some v => if v.truthy && !j.truthyField snake then j.setField snake v else j
  | none => j

/-- The reconciliation pass as the amended claim words it, over the three
known key pairs. -/
def specReconcile (j : Json) : Json :=
  specCopy (specCopy (specCopy j "ad_group" "adGroup") "ad_group_ad"
    "adGroupAd") "customer_client" "customerClient"

/-- The normalizer contract as amended, written from the claim's words:
return the `results` array as-is when that key holds an array; otherwise
reconcile camelCase spellings into absent-or-falsy snake_case keys, then
return the one-element sequence `[chunk]` iff any of the five recognized
keys holds a truthy value, and the empty sequence otherwise; a `null`
chunk makes the property probe throw. -/
def specNormalizeChunk (chunk : Json) : Except Unit (List Json) :=
  match chunk with
  | .null => .error ()
  | j =>
    match j.getField "results" with
    | some (.arr rs) => .ok rs
    | _ =>
      let j := specReconcile j
      if ["campaign", "ad_group", "ad_group_ad", "customer_client",
          "metrics"].any (fun k => j.truthyField k) then .ok [j]
      else .ok []

/-! ## Helper lemmas -/

theorem jsOrS_some {t : String} (b : Option String) (ht : t ≠ "") :
    jsOrS (some t) b = some t := by
  simp [jsOrS, ht]

theorem refreshPath_calls (c : TokenCache) (now : Int) (t : String)
    (resp : RefreshResp) :
    (getAccessTokenFromRefresh.refreshPath c now t resp).networkCalls = 1 := by
  unfold getAccessTokenFromRefresh.refreshPath
  split
  · split <;> rfl
  · rfl

theorem cacheGet_erase_self (c : TokenCache) (t : String) :
    cacheGet (cacheErase c t) t = none := by
  induction c with
  | nil => rfl
  | cons p rest ih =>
    obtain ⟨k, e⟩ := p
    by_cases h : k = t
    · have h1 : (k != t) = false := by simp [h]
      simpa [cacheErase, List.filter_cons, h1] using ih
    · have h1 : (k != t) = true := by simp [h]
      have h2 : (t == k) = false := by simp [Ne.symm h]
      simpa [cacheErase, List.filter_cons, h1, cacheGet, List.lookup, h2]
        using ih

theorem cacheGet_set_self (c : TokenCache) (t : String) (e : CacheEntry) :
    cacheGet (cacheSet c t e) t = some e := by
  simp [cacheGet, cacheSet, List.lookup]

/-- On a cache miss, a successful OAuth exchange returns and caches the
fresh token, with exactly one network call. -/
theorem refresh_success_on_miss (envR : Option String) (c : TokenCache)
    (now : Int) (t : String) (resp : RefreshResp) (a : String) (ht : t ≠ "")
    (hmiss : cacheGet c t = none) (hok : resp.ok = true)
    (hacc : resp.access_token = some a) (ha : a ≠ "") :
    getAccessTokenFromRefresh envR c now (some t) resp
      = ⟨.ok a,
          cacheSet c t ⟨a, now + (jsOrI resp.expires_in 3600 - 300) * 1000⟩,
          1⟩ := by
  unfold getAccessTokenFromRefresh
  rw [jsOrS_some _ ht]
  dsimp only
  rw [hmiss]
  unfold getAccessTokenFromRefresh.refreshPath
  rw [hacc]
  simp [truthyS, hok, ha]

/-- Whenever the cache holds no live entry — a miss or an expired entry
alike — a successful OAuth exchange returns the fresh token and
overwrites the slot with it, with exactly one network call. -/
theorem refresh_success_not_live (envR : Option String) (c : TokenCache)
    (now : Int) (t : String) (resp : RefreshResp) (a : String) (ht : t ≠ "")
    (hmiss : hasLiveEntry c now t = false) (hok : resp.ok = true)
    (hacc : resp.access_token = some a) (ha : a ≠ "") :
    getAccessTokenFromRefresh envR c now (some t) resp
      = ⟨.ok a,
          cacheSet c t ⟨a, now + (jsOrI resp.expires_in 3600 - 300) * 1000⟩,
          1⟩ := by
  have hpath : getAccessTokenFromRefresh.refreshPath c now t resp
      = ⟨.ok a,
          cacheSet c t ⟨a, now + (jsOrI resp.expires_in 3600 - 300) * 1000⟩,
          1⟩ := by
    unfold getAccessTokenFromRefresh.refreshPath
    rw [hacc]
    simp [truthyS, hok, ha]
  unfold getAccessTokenFromRefresh
  rw [jsOrS_some _ ht]
  dsimp only
  unfold hasLiveEntry at hmiss
  cases hc : cacheGet c t with
  | none => rw [hpath]
  | some e =>
      rw [hc] at hmiss
      dsimp only
      have hlive : ¬ now < e.expiry := by simpa using hmiss
      rw [if_neg hlive, hpath]

/-! ## Claim theorems: token cache and refresher -/

/-- Claim C1 (cache freshness): `getAccessTokenFromRefresh(t)` performs a
network refresh via the OAuth token endpoint iff the cache holds no entry
for `t` or the stored entry's expiry has passed (`now ≥ expiry`);
otherwise it returns the cached access token with zero network calls and
without modifying the cache. -/
theorem cache_freshness (envR : Option String) (c : TokenCache) (now : Int)
    (t : String) (resp : RefreshResp) (ht : t ≠ "") :
    ((getAccessTokenFromRefresh envR c now (some t) resp).networkCalls = 1
        ↔ cacheGet c t = none ∨ ∃ e, cacheGet c t = some e ∧ e.expiry ≤ now)
    ∧ (∀ e, cacheGet c t = some e → now < e.expiry →
        (getAccessTokenFromRefresh envR c now (some t) resp).result = .ok e.token
        ∧ (getAccessTokenFromRefresh envR c now (some t) resp).cache = c
        ∧ (getAccessTokenFromRefresh envR c now (some t) resp).networkCalls = 0) := by
  unfold getAccessTokenFromRefresh
  rw [jsOrS_some _ ht]
  dsimp only
  cases cacheGet c t with
  | none =>
      refine ⟨⟨fun _ => Or.inl rfl, fun _ => refreshPath_calls c now t resp⟩, ?_⟩
      intro e he
      exact absurd he (by simp)
  | some e =>
      dsimp only
      by_cases hlive : now < e.expiry
      · rw [if_pos hlive]
        refine ⟨⟨fun h1 => absurd h1 (by simp), fun h2 => ?_⟩, ?_⟩
        · rcases h2 with h2 | ⟨e', he', hexp⟩
          · exact absurd h2 (by simp)
          · cases Option.some.inj he'
            omega
        · intro e' he' _
          cases Option.some.inj he'
          exact ⟨rfl, rfl, rfl⟩
      · rw [if_neg hlive]
        refine ⟨⟨fun _ => Or.inr ⟨e, rfl, by omega⟩,
            fun _ => refreshPath_calls c now t resp⟩, ?_⟩
        intro e' he' h'
        cases Option.some.inj he'
        exact absurd h' hlive

/-- Witness for `cache_freshness` at a concrete live cache entry. -/
theorem cache_freshness_witness :
    (getAccessTokenFromRefresh none [("rt", ⟨"cached", 100⟩)] 10 (some "rt")
        ⟨true, some "new", none⟩).result = .ok "cached"
    ∧ (getAccessTokenFromRefresh none [("rt", ⟨"cached", 100⟩)] 10 (some "rt")
        ⟨true, some "new", none⟩).networkCalls = 0 := by
  have h := (cache_freshness none [("rt", ⟨"cached", 100⟩)] 10 "rt"
    ⟨true, some "new", none⟩ (by decide)).2 ⟨"cached", 100⟩ rfl (by decide)
  exact ⟨h.1, h.2.2⟩

/-- Claim C10 (cache unchanged on failed refresh): when the call reaches
the OAuth exchange and the provider responds non-ok or without a (truthy)
`access_token`, the function throws `TokenRefreshFailed` and the cache is
exactly as before the call: no entry added, a pre-existing expired entry
for that refresh token not removed. -/
theorem cache_unchanged_on_failed_refresh (envR : Option String)
    (c : TokenCache) (now : Int) (t : String) (resp : RefreshResp)
    (ht : t ≠ "") (hmiss : hasLiveEntry c now t = false)
    (hfail : (resp.ok && truthyS resp.access_token) = false) :
    (getAccessTokenFromRefresh envR c now (some t) resp).result
      = .error .tokenRefreshFailed
    ∧ (getAccessTokenFromRefresh envR c now (some t) resp).cache = c
    ∧ (getAccessTokenFromRefresh envR c now (some t) resp).networkCalls = 1 := by
  have hpath : getAccessTokenFromRefresh.refreshPath c now t resp
      = ⟨.error .tokenRefreshFailed, c, 1⟩ := by
    unfold getAccessTokenFromRefresh.refreshPath
    rw [hfail]
    rfl
  unfold getAccessTokenFromRefresh
  rw [jsOrS_some _ ht]
  dsimp only
  unfold hasLiveEntry at hmiss
  cases hc : cacheGet c t with
  | none =>
      rw [hpath]
      exact ⟨rfl, rfl, rfl⟩
  | some e =>
      rw [hc] at hmiss
      dsimp only
      have hlive : ¬ now < e.expiry := by simpa using hmiss
      rw [if_neg hlive, hpath]
      exact ⟨rfl, rfl, rfl⟩

/-- Witness for `cache_unchanged_on_failed_refresh`: a failed exchange
with an expired entry present leaves that entry in place. -/
theorem cache_unchanged_on_failed_refresh_witness :
    (getAccessTokenFromRefresh none [("rt", ⟨"old", 5⟩)] 10 (some "rt")
        ⟨false, none, none⟩).cache = [("rt", ⟨"old", 5⟩)]
    ∧ (getAccessTokenFromRefresh none [("rt", ⟨"old", 5⟩)] 10 (some "rt")
        ⟨false, none, none⟩).result = .error .tokenRefreshFailed := by
  have h := cache_unchanged_on_failed_refresh none [("rt", ⟨"old", 5⟩)] 10
    "rt" ⟨false, none, none⟩ (by decide) rfl rfl
  exact ⟨h.2.1, h.1⟩

/-- Claim C8, amended (token expiry arithmetic): for every successful
refresh at time `now`, with the declared lifetime `expires_in` defaulting
to 3600 when the provider omits it **or declares it as 0** (the source
tests it with JS `||`, under which `0` is falsy), the cache entry stored
for the refresh token has expiry `now + (expires_in − 300) · 1000`
milliseconds and the returned access token equals the stored one. -/
theorem token_expiry_arithmetic (envR : Option String) (c : TokenCache)
    (now : Int) (t : String) (resp : RefreshResp) (a : String) (ht : t ≠ "")
    (hmiss : hasLiveEntry c now t = false) (hok : resp.ok = true)
    (hacc : resp.access_token = some a) (ha : a ≠ "") :
    (getAccessTokenFromRefresh envR c now (some t) resp).result = .ok a
    ∧ cacheGet (getAccessTokenFromRefresh envR c now (some t) resp).cache t
        = some ⟨a, now + (jsOrI resp.expires_in 3600 - 300) * 1000⟩ := by
  rw [refresh_success_not_live envR c now t resp a ht hmiss hok hacc ha]
  exact ⟨rfl, cacheGet_set_self c t _⟩

/-- Witness for `token_expiry_arithmetic`: refreshing over an expired
entry (`expiry 5 < now = 1000`) with a provider lifetime of 7200 seconds
replaces it by an entry expiring 6900 seconds after `now`. -/
theorem token_expiry_arithmetic_witness :
    cacheGet (getAccessTokenFromRefresh none [("rt", ⟨"old", 5⟩)] 1000
        (some "rt") ⟨true, some "fresh", some 7200⟩).cache "rt"
      = some ⟨"fresh", 6901000⟩ := by
  have h := (token_expiry_arithmetic none [("rt", ⟨"old", 5⟩)] 1000 "rt"
    ⟨true, some "fresh", some 7200⟩ "fresh" (by decide) rfl rfl rfl
    (by decide)).2
  simpa [jsOrI] using h

/-- Counterexample for claim C8 as stated: when the provider declares
`expires_in = 0`, the code's `data.expires_in || 3600` treats the declared
lifetime as absent, storing expiry `now + 3300·1000` rather than the
claimed `now + (0 − 300) · 1000`. -/
theorem token_expiry_arithmetic_cex :
    cacheGet (getAccessTokenFromRefresh none [] 0 (some "rt")
        ⟨true, some "at", some 0⟩).cache "rt" = some ⟨"at", 3300000⟩
    ∧ (3300000 : Int) ≠ 0 + ((0 : Int) - 300) * 1000 := by
  exact ⟨rfl, by decide⟩

/-! ## Helper lemmas for the query executor -/

theorem handleSearchResponse_cache (r : HttpResp) (b : Bool)
    (c : TokenCache) (n : Nat) (reqs : List QueryRequest) :
    (handleSearchResponse r b c n reqs).cache = c := by
  unfold handleSearchResponse
  repeat' split
  all_goals rfl

theorem handleSearchResponse_oauthCalls (r : HttpResp) (b : Bool)
    (c : TokenCache) (n : Nat) (reqs : List QueryRequest) :
    (handleSearchResponse r b c n reqs).oauthCalls = n := by
  unfold handleSearchResponse
  repeat' split
  all_goals rfl

theorem handleSearchResponse_requests (r : HttpResp) (b : Bool)
    (c : TokenCache) (n : Nat) (reqs : List QueryRequest) :
    (handleSearchResponse r b c n reqs).requests = reqs := by
  unfold handleSearchResponse
  repeat' split
  all_goals rfl

theorem handleSearchResponse_fail (r : HttpResp) (b : Bool)
    (c : TokenCache) (n : Nat) (reqs : List QueryRequest)
    (h : respOk r = false) :
    (handleSearchResponse r b c n reqs).result
      = .error (.queryFailed r.status (errorDetailsOf r) b) := by
  unfold handleSearchResponse
  rw [h]
  rfl

theorem handleSearchResponse_noParse (r : HttpResp) (b : Bool)
    (c : TokenCache) (n : Nat) (reqs : List QueryRequest)
    (hok : respOk r = true) (hb : r.bodyJson = none) :
    (handleSearchResponse r b c n reqs).result
      = .error (.malformedResponse b) := by
  unfold handleSearchResponse
  rw [hok, hb]
  rfl

theorem executeGAQLQuery_validated (cfg : Config) (cache : TokenCache)
    (now : Int) (env : QueryEnv) {customerId accessToken query : String}
    (loginCustomerId refreshToken : Option String)
    (hcid : customerId ≠ "") (hat : accessToken ≠ "") (hq : query ≠ "") :
    executeGAQLQuery cfg cache now env customerId accessToken query
        loginCustomerId refreshToken
      = executeGAQLQuery.core cfg cache now env (removeDashes customerId)
          accessToken query loginCustomerId refreshToken := by
  unfold executeGAQLQuery
  simp [hcid, hat, hq]

/-! ## Claim theorems: query executor -/

/-- Claim C2 (single retry bound): when the first query attempt returns
HTTP 401 and a refresh token was supplied (and the forced token refresh
succeeds, returning `a`), the executor deletes that refresh token's cache
entry, acquires exactly one fresh access token, retries the query exactly
once with the new credential — the request list is exactly the original
request followed by one retry bearing `a` — and if the retry also fails
(non-2xx) it throws a `QueryFailed` error without any further retry. -/
theorem single_retry_bound (cfg : Config) (cache : TokenCache) (now : Int)
    (env : QueryEnv) (customerId accessToken query : String)
    (loginCustomerId : Option String) (rt a : String)
    (hcid : customerId ≠ "") (hat : accessToken ≠ "") (hq : query ≠ "")
    (hrt : rt ≠ "") (h401 : env.firstResp.status = 401)
    (hrok : env.refreshResp.ok = true)
    (hacc : env.refreshResp.access_token = some a) (ha : a ≠ "") :
    (executeGAQLQuery cfg cache now env customerId accessToken query
        loginCustomerId (some rt)).oauthCalls = 1
    ∧ (executeGAQLQuery cfg cache now env customerId accessToken query
        loginCustomerId (some rt)).requests
      = [⟨effectiveUrl (removeDashes customerId), accessToken,
            resolvedMcc cfg loginCustomerId, query⟩,
          ⟨effectiveUrl (removeDashes customerId), a,
            resolvedMcc cfg loginCustomerId, query⟩]
    ∧ (executeGAQLQuery cfg cache now env customerId accessToken query
        loginCustomerId (some rt)).cache
      = cacheSet (cacheErase cache rt) rt
          ⟨a, now + (jsOrI env.refreshResp.expires_in 3600 - 300) * 1000⟩
    ∧ (respOk env.retryResp = false →
        (executeGAQLQuery cfg cache now env customerId accessToken query
            loginCustomerId (some rt)).result
          = .error (.queryFailed env.retryResp.status
              (errorDetailsOf env.retryResp) true)) := by
  have hcond : (decide (env.firstResp.status = 401) && truthyS (some rt))
      = true := by
    simp [h401, truthyS, hrt]
  have hrun : executeGAQLQuery cfg cache now env customerId accessToken
      query loginCustomerId (some rt)
      = handleSearchResponse env.retryResp true
          (cacheSet (cacheErase cache rt) rt
            ⟨a, now + (jsOrI env.refreshResp.expires_in 3600 - 300) * 1000⟩)
          1
          [⟨effectiveUrl (removeDashes customerId), accessToken,
              resolvedMcc cfg loginCustomerId, query⟩,
            ⟨effectiveUrl (removeDashes customerId), a,
              resolvedMcc cfg loginCustomerId, query⟩] := by
    rw [executeGAQLQuery_validated cfg cache now env loginCustomerId
      (some rt) hcid hat hq]
    unfold executeGAQLQuery.core
    rw [hcond]
    dsimp only
    rw [refresh_success_on_miss cfg.envRefreshToken (cacheErase cache rt)
      now rt env.refreshResp a hrt (cacheGet_erase_self cache rt) hrok hacc ha]
    rfl
  refine ⟨?_, ?_, ?_, ?_⟩
  · rw [hrun]; exact handleSearchResponse_oauthCalls _ _ _ _ _
  · rw [hrun]; exact handleSearchResponse_requests _ _ _ _ _
  · rw [hrun]; exact handleSearchResponse_cache _ _ _ _ _
  · intro hfail
    rw [hrun]
    exact handleSearchResponse_fail _ _ _ _ _ hfail

/-- Witness for `single_retry_bound`: a 401 then a failing (500) retry. -/
theorem single_retry_bound_witness :
    (executeGAQLQuery ⟨none, none⟩ [("rt", ⟨"stale", 0⟩)] 100
        ⟨⟨401, "auth", none⟩, ⟨true, some "fresh", some 3600⟩,
          ⟨500, "boom", none⟩⟩
        "123" "tok" "SELECT campaign.id FROM campaign" none
        (some "rt")).oauthCalls = 1
    ∧ (executeGAQLQuery ⟨none, none⟩ [("rt", ⟨"stale", 0⟩)] 100
        ⟨⟨401, "auth", none⟩, ⟨true, some "fresh", some 3600⟩,
          ⟨500, "boom", none⟩⟩
        "123" "tok" "SELECT campaign.id FROM campaign" none
        (some "rt")).result
      = .error (.queryFailed 500 (.str "boom") true) := by
  have h := single_retry_bound ⟨none, none⟩ [("rt", ⟨"stale", 0⟩)] 100
    ⟨⟨401, "auth", none⟩, ⟨true, some "fresh", some 3600⟩, ⟨500, "boom", none⟩⟩
    "123" "tok" "SELECT campaign.id FROM campaign" none "rt" "fresh"
    (by decide) (by decide) (by decide) (by decide) rfl rfl rfl (by decide)
  exact ⟨h.1, h.2.2.2 rfl⟩

/-- Claim C3 (no retry without refresh token): a 401 on the first attempt
with no refresh token supplied is surfaced immediately as `QueryFailed`
carrying the provider's status and payload; exactly one query request is
issued, no OAuth call is made, and the cache is untouched. -/
theorem no_retry_without_refresh_token (cfg : Config) (cache : TokenCache)
    (now : Int) (env : QueryEnv) (customerId accessToken query : String)
    (loginCustomerId : Option String)
    (hcid : customerId ≠ "") (hat : accessToken ≠ "") (hq : query ≠ "")
    (h401 : env.firstResp.status = 401) :
    (executeGAQLQuery cfg cache now env customerId accessToken query
        loginCustomerId none).result
      = .error (.queryFailed 401 (errorDetailsOf env.firstResp) false)
    ∧ (executeGAQLQuery cfg cache now env customerId accessToken query
        loginCustomerId none).requests
      = [⟨effectiveUrl (removeDashes customerId), accessToken,
          resolvedMcc cfg loginCustomerId, query⟩]
    ∧ (executeGAQLQuery cfg cache now env customerId accessToken query
        loginCustomerId none).oauthCalls = 0
    ∧ (executeGAQLQuery cfg cache now env customerId accessToken query
        loginCustomerId none).cache = cache := by
  have hro : respOk env.firstResp = false := by
    simp [respOk, h401]
  have hrun : executeGAQLQuery cfg cache now env customerId accessToken
      query loginCustomerId none
      = handleSearchResponse env.firstResp false cache 0
          [⟨effectiveUrl (removeDashes customerId), accessToken,
            resolvedMcc cfg loginCustomerId, query⟩] := by
    rw [executeGAQLQuery_validated cfg cache now env loginCustomerId none
      hcid hat hq]
    unfold executeGAQLQuery.core
    have hcond : (decide (env.firstResp.status = 401) && truthyS
        (none : Option String)) = false := by
      simp [truthyS]
    rw [hcond]
    rfl
  refine ⟨?_, ?_, ?_, ?_⟩
  · rw [hrun, handleSearchResponse_fail _ _ _ _ _ hro, h401]
  · rw [hrun]; exact handleSearchResponse_requests _ _ _ _ _
  · rw [hrun]; exact handleSearchResponse_oauthCalls _ _ _ _ _
  · rw [hrun]; exact handleSearchResponse_cache _ _ _ _ _

/-- Witness for `no_retry_without_refresh_token`. -/
theorem no_retry_without_refresh_token_witness :
    (executeGAQLQuery ⟨none, none⟩ [] 0
        ⟨⟨401, "denied", none⟩, ⟨false, none, none⟩, ⟨0, "", none⟩⟩
        "123" "tok" "SELECT campaign.id FROM campaign" none none).result
      = .error (.queryFailed 401 (.str "denied") false) :=
  (no_retry_without_refresh_token ⟨none, none⟩ [] 0
    ⟨⟨401, "denied", none⟩, ⟨false, none, none⟩, ⟨0, "", none⟩⟩
    "123" "tok" "SELECT campaign.id FROM campaign" none
    (by decide) (by decide) (by decide) rfl).1

/-- Claim C5 (top-level malformed-response fatality): a successful (2xx)
query response whose whole body fails to parse as one JSON document — in
particular any body unparseable in either recognized encoding — makes
`executeGAQLQuery` throw a fatal `MalformedResponse` error; it never
silently returns a row sequence. -/
theorem malformed_response_fatal (cfg : Config) (cache : TokenCache)
    (now : Int) (env : QueryEnv) (customerId accessToken query : String)
    (loginCustomerId refreshToken : Option String)
    (hcid : customerId ≠ "") (hat : accessToken ≠ "") (hq : query ≠ "")
    (hok : respOk env.firstResp = true)
    (hbad : env.firstResp.bodyJson = none) :
    (executeGAQLQuery cfg cache now env customerId accessToken query
        loginCustomerId refreshToken).result
      = .error (.malformedResponse false)
    ∧ ∀ rows, (executeGAQLQuery cfg cache now env customerId accessToken
        query loginCustomerId refreshToken).result ≠ .ok rows := by
  have hne : env.firstResp.status ≠ 401 := by
    unfold respOk at hok
    simp only [Bool.and_eq_true, decide_eq_true_eq] at hok
    omega
  have hrun : executeGAQLQuery cfg cache now env customerId accessToken
      query loginCustomerId refreshToken
      = handleSearchResponse env.firstResp false cache 0
          [⟨effectiveUrl (removeDashes customerId), accessToken,
            resolvedMcc cfg loginCustomerId, query⟩] := by
    rw [executeGAQLQuery_validated cfg cache now env loginCustomerId
      refreshToken hcid hat hq]
    unfold executeGAQLQuery.core
    have hcond : (decide (env.firstResp.status = 401)
        && truthyS refreshToken) = false := by
      simp [hne]
    rw [hcond]
    rfl
  have h1 : (executeGAQLQuery cfg cache now env customerId accessToken
      query loginCustomerId refreshToken).result
      = .error (.malformedResponse false) := by
    rw [hrun]
    exact handleSearchResponse_noParse _ _ _ _ _ hok hbad
  refine ⟨h1, ?_⟩
  intro rows hcontra
  rw [h1] at hcontra
  exact Except.noConfusion hcontra

/-- Witness for `malformed_response_fatal`: a 200 response whose body is
not a JSON document. -/
theorem malformed_response_fatal_witness :
    (executeGAQLQuery ⟨none, none⟩ [] 0
        ⟨⟨200, "garbage-not-json", none⟩, ⟨false, none, none⟩,
          ⟨0, "", none⟩⟩
        "123" "tok" "SELECT campaign.id FROM campaign" none none).result
      = .error (.malformedResponse false) :=
  (malformed_response_fatal ⟨none, none⟩ [] 0
    ⟨⟨200, "garbage-not-json", none⟩, ⟨false, none, none⟩, ⟨0, "", none⟩⟩
    "123" "tok" "SELECT campaign.id FROM campaign" none none
    (by decide) (by decide) (by decide) rfl rfl).1

/-- Claim C9 (customer-ID normalization): `"123-456-7890"` and
`"1234567890"` both normalize to `"1234567890"`, and the two input forms
make `executeGAQLQuery` behave identically — in particular they produce
identical outbound requests. -/
theorem customer_id_normalization :
    normalizeCustomerId "123-456-7890" = .ok "1234567890"
    ∧ normalizeCustomerId "1234567890" = .ok "1234567890"
    ∧ ∀ (cfg : Config) (cache : TokenCache) (now : Int) (env : QueryEnv)
        (accessToken query : String)
        (loginCustomerId refreshToken : Option String),
        executeGAQLQuery cfg cache now env "123-456-7890" accessToken query
            loginCustomerId refreshToken
          = executeGAQLQuery cfg cache now env "1234567890" accessToken
              query loginCustomerId refreshToken := by
  refine ⟨rfl, rfl, ?_⟩
  intro cfg cache now env accessToken query loginCustomerId refreshToken
  unfold executeGAQLQuery
  rw [show removeDashes "123-456-7890" = removeDashes "1234567890" from rfl]
  rw [show (decide ("123-456-7890" = "")) = (decide ("1234567890" = ""))
    from rfl]

/-! ## Helper lemmas for response normalization -/

theorem streaming_parse_direct (j : Json)
    (h : Streaming.isDirectRow j = true) :
    Streaming.parseSearchStreamChunk j = .ok [j] := by
  unfold Streaming.isDirectRow at h
  rw [Bool.and_eq_true] at h
  obtain ⟨h1, h2⟩ := h
  have hres : j.resultsArr = none := by simpa using h1
  cases j with
  | null => simp [recognizedKeys, Json.truthyField, Json.getField] at h2
  | bool b => simp [Streaming.parseSearchStreamChunk, hres, h2]
  | num n => simp [Streaming.parseSearchStreamChunk, hres, h2]
  | str s => simp [Streaming.parseSearchStreamChunk, hres, h2]
  | arr xs => simp [Streaming.parseSearchStreamChunk, hres, h2]
  | obj fs => simp [Streaming.parseSearchStreamChunk, hres, h2]

theorem streaming_parseBody_append (xs ys : List (Option Json)) :
    Streaming.parseBody (xs ++ ys)
      = ((Streaming.parseBody xs).1 ++ (Streaming.parseBody ys).1,
          (Streaming.parseBody xs).2 + (Streaming.parseBody ys).2) := by
  induction xs with
  | nil => simp [Streaming.parseBody]
  | cons o rest ih =>
      simp [Streaming.parseBody, ih, List.append_assoc, Nat.add_assoc]

theorem streaming_parseBody_direct (l : List Json)
    (h : l.all Streaming.isDirectRow = true) :
    Streaming.parseBody (l.map some) = (l, 0) := by
  induction l with
  | nil => rfl
  | cons j rest ih =>
      rw [List.all_cons, Bool.and_eq_true] at h
      obtain ⟨hj, hrest⟩ := h
      simp [Streaming.parseBody, Streaming.lineRows,
        streaming_parse_direct j hj, ih hrest]

theorem copyKey_id (j : Json) (s c : String)
    (h : (!j.truthyField s && j.truthyField c) = false) :
    copyKey j s c = j := by
  unfold copyKey
  rw [h]
  rfl

theorem reconcile_id (j : Json)
    (ha : (!j.truthyField "ad_group" && j.truthyField "adGroup") = false)
    (hb : (!j.truthyField "ad_group_ad" && j.truthyField "adGroupAd") = false)
    (hc : (!j.truthyField "customer_client"
        && j.truthyField "customerClient") = false) :
    reconcile j = j := by
  unfold reconcile
  cases j with
  | obj fs => rw [copyKey_id _ _ _ ha, copyKey_id _ _ _ hb, copyKey_id _ _ _ hc]
  | null => rfl
  | bool b => rfl
  | num n => rfl
  | str s => rfl
  | arr xs => rfl

theorem good_parse_chunk (j : Json) (h : goodRow j = true) :
    parseSearchStreamChunk j = .ok [j] := by
  simp only [goodRow, Bool.and_eq_true, Bool.not_eq_true',
    Bool.or_eq_false_iff] at h
  obtain ⟨⟨h1, h2⟩, ⟨h3a, h3b⟩, h3c⟩ := h
  have hres : j.resultsArr = none := by simpa using h1
  have hrec : reconcile j = j := reconcile_id j h3a h3b h3c
  cases j with
  | null => simp [recognizedKeys, Json.truthyField, Json.getField] at h2
  | bool b => simp [parseSearchStreamChunk, hres, hrec, h2]
  | num n => simp [parseSearchStreamChunk, hres, hrec, h2]
  | str s => simp [parseSearchStreamChunk, hres, hrec, h2]
  | arr xs => simp [parseSearchStreamChunk, hres, hrec, h2]
  | obj fs => simp [parseSearchStreamChunk, hres, hrec, h2]

theorem mapM_good (R : List Json) (h : R.all goodRow = true) :
    R.mapM parseSearchStreamChunk = Except.ok (R.map (fun r => [r])) := by
  induction R with
  | nil => rfl
  | cons r rest ih =>
      rw [List.all_cons, Bool.and_eq_true] at h
      obtain ⟨hr, hrest⟩ := h
      rw [List.mapM_cons, good_parse_chunk r hr, ih hrest]
      rfl

theorem flatten_map_singleton (R : List Json) :
    (R.map (fun r => [r])).flatten = R := by
  induction R with
  | nil => rfl
  | cons r rest ih => simp [ih]

theorem parseSearchBody_arr (R : List Json) (h : R.all goodRow = true) :
    parseSearchBody (.arr R) = .ok R := by
  have hdef : parseSearchBody (.arr R)
      = (R.mapM parseSearchStreamChunk).map List.flatten := rfl
  rw [hdef, mapM_good R h]
  simp [Except.map, flatten_map_singleton]

theorem parseSearchBody_resultsObj (R : List Json)
    (h : R.all goodRow = true) :
    parseSearchBody (.obj [("results", .arr R)]) = .ok R := by
  have hdef : parseSearchBody (.obj [("results", .arr R)])
      = (R.mapM parseSearchStreamChunk).map List.flatten := rfl
  rw [hdef, mapM_good R h]
  simp [Except.map, flatten_map_singleton]

theorem parseSearchBody_bare (r : Json) (h : goodRow r = true) :
    parseSearchBody r = .ok [r] := by
  cases r with
  | null => simp [goodRow, recognizedKeys, Json.truthyField, Json.getField] at h
  | bool b => simp [goodRow, recognizedKeys, Json.truthyField, Json.getField] at h
  | num n => simp [goodRow, recognizedKeys, Json.truthyField, Json.getField] at h
  | str s => simp [goodRow, recognizedKeys, Json.truthyField, Json.getField] at h
  | arr xs => simp [goodRow, recognizedKeys, Json.truthyField, Json.getField] at h
  | obj fs =>
      have hres : (Json.obj fs).resultsArr = none := by
        have h1 := h
        simp only [goodRow, Bool.and_eq_true] at h1
        simpa using h1.1.1
      simp [parseSearchBody, hres, good_parse_chunk _ h]

theorem streaming_results_chunk (p : List Json) :
    Streaming.lineRows (some (.obj [("results", .arr p)])) = (p, 0) := by
  simp [Streaming.lineRows, Streaming.parseSearchStreamChunk,
    Json.resultsArr, Json.getField, List.lookup]

theorem streaming_parts (parts : List (List Json)) :
    Streaming.parseBody
        (parts.map (fun p => some (.obj [("results", .arr p)])))
      = (parts.flatten, 0) := by
  induction parts with
  | nil => rfl
  | cons p rest ih =>
      simp [Streaming.parseBody, streaming_results_chunk, ih]

/-! ## Claim theorems: response normalization -/

/-- Counterexample for claim C4 as stated: a successful (200) response
whose body is a two-line streaming sequence — a valid result-chunk line
followed by the unparseable line `oops`, so the whole text is not one
JSON document (`bodyJson = none`) — makes the exported `executeGAQLQuery`
raise a fatal `MalformedResponse` error instead of returning the one row
from the valid line. -/
theorem malformed_chunk_tolerance_cex :
    (executeGAQLQuery ⟨none, none⟩ [] 0
        ⟨⟨200, "\x7b\"campaign\":\x7b\"id\":\"1\"\x7d\x7d\noops", none⟩,
          ⟨false, none, none⟩, ⟨0, "", none⟩⟩
        "1234567890" "tok" "SELECT campaign.id FROM campaign" none
        none).result
      = .error (.malformedResponse false)
    ∧ ∀ rows, (executeGAQLQuery ⟨none, none⟩ [] 0
        ⟨⟨200, "\x7b\"campaign\":\x7b\"id\":\"1\"\x7d\x7d\noops", none⟩,
          ⟨false, none, none⟩, ⟨0, "", none⟩⟩
        "1234567890" "tok" "SELECT campaign.id FROM campaign" none
        none).result ≠ .ok rows := by
  have h1 : (executeGAQLQuery ⟨none, none⟩ [] 0
      ⟨⟨200, "\x7b\"campaign\":\x7b\"id\":\"1\"\x7d\x7d\noops", none⟩,
        ⟨false, none, none⟩, ⟨0, "", none⟩⟩
      "1234567890" "tok" "SELECT campaign.id FROM campaign" none
      none).result = .error (.malformedResponse false) := rfl
  refine ⟨h1, ?_⟩
  intro rows hcontra
  rw [h1] at hcontra
  exact Except.noConfusion hcontra

/-- Claim C4, amended (malformed-chunk tolerance): the per-line tolerance
holds for the streaming (`:searchStream`) revision's response
normalization, not for the exported `/search` executor (which treats such
a body as a fatal `MalformedResponse`): a streaming body of one
unparseable line among N valid single-row chunk lines yields exactly the
N rows, in order, and emits exactly one error-log entry — no fatal
error. -/
theorem malformed_chunk_tolerance (pre post : List Json)
    (hpre : pre.all Streaming.isDirectRow = true)
    (hpost : post.all Streaming.isDirectRow = true) :
    Streaming.parseBody (pre.map some ++ none :: post.map some)
      = (pre ++ post, 1) := by
  rw [streaming_parseBody_append, streaming_parseBody_direct pre hpre]
  have h2 : Streaming.parseBody (none :: post.map some)
      = (post, 1) := by
    have := streaming_parseBody_direct post hpost
    simp [Streaming.parseBody, Streaming.lineRows, this]
  rw [h2]
  rfl

/-- Witness for `malformed_chunk_tolerance`: one valid campaign row plus
one bad line yields that row and one log entry. -/
theorem malformed_chunk_tolerance_witness :
    Streaming.parseBody
        [some (.obj [("campaign", .obj [("id", .str "1")])]), none]
      = ([.obj [("campaign", .obj [("id", .str "1")])]], 1) :=
  malformed_chunk_tolerance [.obj [("campaign", .obj [("id", .str "1")])]]
    [] rfl rfl

/-- Counterexample for claim C6 as stated: the logical one-row result set
`[{customer: {id: 1}}]` (a row without any of the five recognized
resource keys) survives streaming normalization — a `results` chunk's
rows are returned as-is — but the single-JSON-document normalization of
the exported executor pushes each row of a `results` array through
`parseSearchStreamChunk`, which drops it; the two encodings produce
different row sequences. -/
theorem dual_encoding_equivalence_cex :
    Streaming.parseBody
        [some (.obj [("results",
          .arr [.obj [("customer", .obj [("id", .num 1)])]])])]
      = ([.obj [("customer", .obj [("id", .num 1)])]], 0)
    ∧ parseSearchBody (.obj [("results",
          .arr [.obj [("customer", .obj [("id", .num 1)])]])])
      = .ok []
    ∧ ([.obj [("customer", .obj [("id", .num 1)])]] : List Json) ≠ [] := by
  refine ⟨rfl, rfl, ?_⟩
  intro hcontra
  exact List.noConfusion hcontra

/-- Claim C6, amended (dual-encoding equivalence): for every logical
result set whose rows each carry a truthy recognized snake_case resource
key and trigger no camelCase reconciliation (`goodRow`), the streaming
encoding (any partition of the rows into `results` chunks, one per line)
and the single-JSON-document encodings (array of rows, object with a
top-level `results` array, or — for a one-row set — the bare resource
object) all normalize to the same row sequence, in order. -/
theorem dual_encoding_equivalence (parts : List (List Json)) (R : List Json)
    (hflat : parts.flatten = R) (hgood : R.all goodRow = true) :
    Streaming.parseBody
        (parts.map (fun p => some (.obj [("results", .arr p)])))
      = (R, 0)
    ∧ parseSearchBody (.arr R) = .ok R
    ∧ parseSearchBody (.obj [("results", .arr R)]) = .ok R
    ∧ ∀ r, R = [r] → parseSearchBody r = .ok [r] := by
  refine ⟨by rw [streaming_parts, hflat], parseSearchBody_arr R hgood,
    parseSearchBody_resultsObj R hgood, ?_⟩
  intro r hr
  subst hr
  have hgr : goodRow r = true := by simpa using hgood
  exact parseSearchBody_bare r hgr

/-- Witness for `dual_encoding_equivalence` on the one-row result set
`[{campaign: {id: "1"}}]`. -/
theorem dual_encoding_equivalence_witness :
    parseSearchBody (.obj [("results",
        .arr [.obj [("campaign", .obj [("id", .str "1")])]])])
      = .ok [.obj [("campaign", .obj [("id", .str "1")])]]
    ∧ parseSearchBody (.obj [("campaign", .obj [("id", .str "1")])])
      = .ok [.obj [("campaign", .obj [("id", .str "1")])]] := by
  have h := dual_encoding_equivalence
    [[.obj [("campaign", .obj [("id", .str "1")])]]]
    [.obj [("campaign", .obj [("id", .str "1")])]] rfl rfl
  exact ⟨h.2.2.1, h.2.2.2 _ rfl⟩

/-- Counterexample for claim C7 as stated: the chunk
`{campaign: null}` has the key `campaign` present, yet the normalizer
returns the empty sequence rather than `[chunk]` — the source tests the
recognized keys for JS truthiness, not presence. -/
theorem normalizer_contract_cex :
    Json.hasKey (.obj [("campaign", .null)]) "campaign" = true
    ∧ parseSearchStreamChunk (.obj [("campaign", .null)]) = .ok []
    ∧ (Except.ok ([] : List Json) : Except Unit (List Json))
        ≠ .ok [.obj [("campaign", .null)]] := by
  refine ⟨rfl, rfl, ?_⟩
  intro hcontra
  rw [Except.ok.injEq] at hcontra
  exact List.noConfusion hcontra

/-- Claim C7, amended (normalizer contract): for every JSON chunk,
`parseSearchStreamChunk` returns the chunk's `results` value as-is when
that key holds an array; otherwise, after copying each camelCase spelling
(`adGroup`, `adGroupAd`, `customerClient`) into its snake_case key when
the snake_case key holds no truthy value and the camelCase key does, it
returns `[chunk]` iff any of `campaign`, `ad_group`, `ad_group_ad`,
`customer_client`, `metrics` holds a truthy value, and the empty sequence
otherwise (`null` being the one chunk on which the property probe itself
throws).  Stated as extensional equality with `specNormalizeChunk`,
written from the amended claim's words. -/
theorem normalizer_contract (chunk : Json) :
    parseSearchStreamChunk chunk = specNormalizeChunk chunk := by
  have hcopy : ∀ (j : Json) (s c : String), copyKey j s c = specCopy j s c := by
    intro j s c
    unfold copyKey specCopy
    cases hget : j.getField c with
    | none => simp [Json.truthyField, hget]
    | some v => simp [Json.truthyField, hget, Bool.and_comm]
  have hrec : ∀ j : Json, reconcile j = specReconcile j := by
    intro j
    unfold reconcile specReconcile
    cases j with
    | obj fs => rw [hcopy, hcopy, hcopy]
    | null => simp [specCopy, Json.getField]
    | bool b => simp [specCopy, Json.getField]
    | num n => simp [specCopy, Json.getField]
    | str s => simp [specCopy, Json.getField]
    | arr xs => simp [specCopy, Json.getField]
  have hkeys : ∀ j : Json,
      (["campaign", "ad_group", "ad_group_ad", "customer_client",
        "metrics"].any (fun k => j.truthyField k)) = recognizedKeys j := by
    intro j
    simp [recognizedKeys, Bool.or_assoc]
  cases chunk with
  | null => rfl
  | bool b => simp [parseSearchStreamChunk, specNormalizeChunk,
      Json.resultsArr, Json.getField, hrec, hkeys]
  | num n => simp [parseSearchStreamChunk, specNormalizeChunk,
      Json.resultsArr, Json.getField, hrec, hkeys]
  | str s => simp [parseSearchStreamChunk, specNormalizeChunk,
      Json.resultsArr, Json.getField, hrec, hkeys]
  | arr xs => simp [parseSearchStreamChunk, specNormalizeChunk,
      Json.resultsArr, Json.getField, hrec, hkeys]
  | obj fs =>
      unfold parseSearchStreamChunk specNormalizeChunk
      unfold Json.resultsArr
      cases hget : (Json.obj fs).getField "results" with
      | none => simp [hget, hrec, hkeys]
      | some v =>
          cases v with
          | arr rs => simp [hget]
          | null => simp [hget, hrec, hkeys]
          | bool b => simp [hget, hrec, hkeys]
          | num n => simp [hget, hrec, hkeys]
          | str s => simp [hget, hrec, hkeys]
          | obj gs => simp [hget, hrec, hkeys]
